import Mathlib

/-!
Shallow embedding of `src/SFML/Graphics/Text.cpp` (SFML 1.x, class `sf::Text`).

Modelling conventions:
- `float` values are modelled by `ℚ` (the claims under study are structural:
  cache behaviour, quad counts, clamping, monotonicity, exact formulas with
  the literal coefficients 0.1, 0.07, 0.208 taken as rationals);
- Unicode code points (`sf::Uint32`) are modelled by `Nat`
  (space = 32, tab = 9, vertical tab = 11, line feed = 10);
- the non-owning `const Font*` member is modelled by `Option FontId` where
  `FontId := Nat` stands for the pointer identity; the actual glyph metrics
  are supplied by an environment `F : FontId → Font`;
- the `Renderer` sink is modelled by the list of quads submitted to it.
-/

namespace SfmlText

/-- Pointer identity of a font object (`const Font*`). -/
abbrev FontId := Nat

/-- `sf::IntRect` (integer rectangle: glyph pixel bounds). -/
structure IntRect where
  Left : Int
  Top : Int
  Right : Int
  Bottom : Int
deriving DecidableEq

/-- `sf::FloatRect`, floats modelled by `ℚ`. -/
structure FloatRect where
  Left : ℚ
  Top : ℚ
  Right : ℚ
  Bottom : ℚ
deriving DecidableEq

/-- `sf::Glyph`: `int Advance; IntRect Rectangle; FloatRect TexCoords;`. -/
structure Glyph where
  Advance : Int
  Rectangle : IntRect
  TexCoords : FloatRect
deriving DecidableEq

/-- The font collaborator, as the interface `Text.cpp` consumes:
`GetGlyph(char, size, bold)`, `GetKerning(prev, cur, size)`,
`GetLineSpacing(size)`, and `GetImage(size).GetTexCoords(IntRect(1,1,1,1))`
(the reserved 1×1 underline-fill region, here `GetTexCoords11 size`). -/
structure Font where
  GetGlyph : Nat → Nat → Bool → Glyph
  GetKerning : Nat → Nat → Nat → Int
  GetLineSpacing : Nat → Int
  GetTexCoords11 : Nat → FloatRect

/-- Style bits of `sf::Text::Style`: `Regular = 0`. -/
def Regular : Nat := 0

/-- `Bold = 1 << 0`. -/
def Bold : Nat := 1

/-- `Italic = 1 << 1`. -/
def Italic : Nat := 2

/-- `Underlined = 1 << 2`. -/
def Underlined : Nat := 4

/-- The member state of a `sf::Text` object (the fields `Text.cpp` touches). -/
structure TextState where
  myString : List Nat
  myFont : Option FontId
  myCharacterSize : Nat
  myStyle : Nat
  myRectUpdated : Bool
  myBaseRect : FloatRect
deriving DecidableEq

/-- `Text::Text()`: default font, size 30, `Regular`, `myRectUpdated = true`;
`myString` and `myBaseRect` are default-constructed (empty / all-zero). -/
def TextDefault (defaultFont : FontId) : TextState :=
  { myString := []
    myFont := some defaultFont
    myCharacterSize := 30
    myStyle := Regular
    myRectUpdated := true
    myBaseRect := ⟨0, 0, 0, 0⟩ }

/-- `Text::SetString`: stores the string and unconditionally clears
`myRectUpdated`. -/
def SetString (s : List Nat) (t : TextState) : TextState :=
  { t with myString := s, myRectUpdated := false }

/-- `Text::Text(string, font, characterSize)`: sets font, size, `Regular`,
`myRectUpdated = true` in the member list, then calls `SetString(string)`. -/
def TextMk (s : List Nat) (f : FontId) (characterSize : Nat) : TextState :=
  SetString s
    { myString := []
      myFont := some f
      myCharacterSize := characterSize
      myStyle := Regular
      myRectUpdated := true
      myBaseRect := ⟨0, 0, 0, 0⟩ }

/-- `Text::SetFont`: pointer comparison `myFont != &font`; updates and clears
the cache flag only when the font differs. -/
def SetFont (f : FontId) (t : TextState) : TextState :=
  if t.myFont = some f then t
  else { t with myFont := some f, myRectUpdated := false }

/-- `Text::SetCharacterSize`: updates and clears the cache flag only when the
size differs. -/
def SetCharacterSize (size : Nat) (t : TextState) : TextState :=
  if t.myCharacterSize = size then t
  else { t with myCharacterSize := size, myRectUpdated := false }

/-- `Text::SetStyle`: updates and clears the cache flag only when the style
differs. -/
def SetStyle (style : Nat) (t : TextState) : TextState :=
  if t.myStyle = style then t
  else { t with myStyle := style, myRectUpdated := false }

/-- Loop state of `Text::GetCharacterPos`: the cursor and `prevChar`. -/
structure PosSt where
  x : ℚ
  y : ℚ
  prevChar : Nat
deriving DecidableEq

/-- One iteration of the `Text::GetCharacterPos` loop: kerning, then the
special-character switch (space 32, tab 9, vertical tab 11, line feed 10),
else the glyph advance. -/
def posStep (font : Font) (size : Nat) (bold : Bool) (space lineSpacing : ℚ)
    (st : PosSt) (c : Nat) : PosSt :=
  let x1 := st.x + (font.GetKerning st.prevChar c size : ℚ)
  if c = 32 then { x := x1 + space, y := st.y, prevChar := c }
  else if c = 9 then { x := x1 + space * 4, y := st.y, prevChar := c }
  else if c = 11 then { x := x1, y := st.y + lineSpacing * 4, prevChar := c }
  else if c = 10 then { x := 0, y := st.y + lineSpacing, prevChar := c }
  else { x := x1 + ((font.GetGlyph c size bold).Advance : ℚ), y := st.y, prevChar := c }

/-- `Text::GetCharacterPos(index)`: `(0,0)` without a font; the index is
clamped to the string length; then the kerning-aware walk over the first
`index` code points. -/
def GetCharacterPos (F : FontId → Font) (t : TextState) (index : Nat) : ℚ × ℚ :=
  match t.myFont with
  | none => (0, 0)
  | some fid =>
    let font := F fid
    let idx := min index t.myString.length
    let bold : Bool := t.myStyle &&& Bold != 0
    let space : ℚ := ((font.GetGlyph 32 t.myCharacterSize bold).Advance : ℚ)
    let lineSpacing : ℚ := (font.GetLineSpacing t.myCharacterSize : ℚ)
    let st := (t.myString.take idx).foldl
      (posStep font t.myCharacterSize bold space lineSpacing) ⟨0, 0, 0⟩
    (st.x, st.y)

/-- One vertex submitted via `Renderer::AddVertex(x, y, u, v)`. -/
structure Vertex where
  x : ℚ
  y : ℚ
  u : ℚ
  v : ℚ
deriving DecidableEq

/-- One `Begin(QuadList) … End()` group of four vertices. -/
structure Quad where
  v0 : Vertex
  v1 : Vertex
  v2 : Vertex
  v3 : Vertex
deriving DecidableEq

/-- The underline quad of `Text::Render`: spans `[0, x]` horizontally at the
band `[y + off, y + off + thick]`, textured with the underline coords. -/
def underlineQuad (x y off thick : ℚ) (uc : FloatRect) : Quad :=
  { v0 := ⟨0, y + off, uc.Left, uc.Top⟩
    v1 := ⟨x, y + off, uc.Right, uc.Top⟩
    v2 := ⟨x, y + off + thick, uc.Right, uc.Bottom⟩
    v3 := ⟨0, y + off + thick, uc.Left, uc.Bottom⟩ }

/-- The glyph quad of `Text::Render`: the glyph rectangle offset by the
cursor, with the italic shear applied per vertex. -/
def glyphQuad (x y italicCoeff : ℚ) (r : IntRect) (co : FloatRect) : Quad :=
  { v0 := ⟨x + (r.Left : ℚ) - italicCoeff * (r.Top : ℚ), y + (r.Top : ℚ), co.Left, co.Top⟩
    v1 := ⟨x + (r.Right : ℚ) - italicCoeff * (r.Top : ℚ), y + (r.Top : ℚ), co.Right, co.Top⟩
    v2 := ⟨x + (r.Right : ℚ) - italicCoeff * (r.Bottom : ℚ), y + (r.Bottom : ℚ), co.Right, co.Bottom⟩
    v3 := ⟨x + (r.Left : ℚ) - italicCoeff * (r.Bottom : ℚ), y + (r.Bottom : ℚ), co.Left, co.Bottom⟩ }

/-- Loop state of the `Text::Render` walk: cursor, `prevChar`, and the quads
submitted so far. -/
structure RenderSt where
  x : ℚ
  y : ℚ
  prevChar : Nat
  quads : List Quad
deriving DecidableEq

/-- One iteration of the `Text::Render` loop: kerning; an underline quad when
underlined and the character is a line feed; then the special-character
switch, else a glyph quad followed by the advance. -/
def renderStep (font : Font) (size : Nat) (bold underlined : Bool)
    (italicCoeff off thick space lineSpacing : ℚ) (uc : FloatRect)
    (st : RenderSt) (c : Nat) : RenderSt :=
  let x1 := st.x + (font.GetKerning st.prevChar c size : ℚ)
  let qs := if underlined && (c == 10) then st.quads ++ [underlineQuad x1 st.y off thick uc]
            else st.quads
  if c = 32 then { x := x1 + space, y := st.y, prevChar := c, quads := qs }
  else if c = 9 then { x := x1 + space * 4, y := st.y, prevChar := c, quads := qs }
  else if c = 10 then { x := 0, y := st.y + lineSpacing, prevChar := c, quads := qs }
  else if c = 11 then { x := x1, y := st.y + lineSpacing * 4, prevChar := c, quads := qs }
  else
    let g := font.GetGlyph c size bold
    { x := x1 + (g.Advance : ℚ), y := st.y, prevChar := c,
      quads := qs ++ [glyphQuad x1 st.y italicCoeff g.Rectangle g.TexCoords] }

/-- `Text::Render`: no-op without a font or with an empty string; otherwise
the walk starting at `(0, characterSize)`, followed by the trailing underline
quad when underlined. Returns the quads submitted to the renderer. -/
def Render (F : FontId → Font) (t : TextState) : List Quad :=
  match t.myFont with
  | none => []
  | some fid =>
    if t.myString.isEmpty then []
    else
      let font := F fid
      let bold : Bool := t.myStyle &&& Bold != 0
      let underlined : Bool := t.myStyle &&& Underlined != 0
      let italicCoeff : ℚ := if t.myStyle &&& Italic != 0 then 208/1000 else 0
      let off : ℚ := (t.myCharacterSize : ℚ) * (1/10)
      let thick : ℚ := (t.myCharacterSize : ℚ) * (if bold then 1/10 else 7/100)
      let uc := font.GetTexCoords11 t.myCharacterSize
      let space : ℚ := ((font.GetGlyph 32 t.myCharacterSize bold).Advance : ℚ)
      let lineSpacing : ℚ := (font.GetLineSpacing t.myCharacterSize : ℚ)
      let st := t.myString.foldl
        (renderStep font t.myCharacterSize bold underlined italicCoeff off thick space lineSpacing uc)
        ⟨0, (t.myCharacterSize : ℚ), 0, []⟩
      if underlined then st.quads ++ [underlineQuad st.x st.y off thick uc]
      else st.quads

/-- Loop state of `Text::UpdateRect`: current-line width/height, running
width/height totals, and `prevChar`. -/
structure BoxSt where
  curWidth : ℚ
  curHeight : ℚ
  width : ℚ
  height : ℚ
  prevChar : Nat
deriving DecidableEq

/-- One iteration of the `Text::UpdateRect` loop: kerning into `curWidth`,
then the special-character switch, else the glyph advance and the
`charHeight = charSize + Rectangle.Bottom` line-height maximum. -/
def boxStep (font : Font) (size : Nat) (bold : Bool) (space lineSpacing : ℚ)
    (st : BoxSt) (c : Nat) : BoxSt :=
  let cw := st.curWidth + (font.GetKerning st.prevChar c size : ℚ)
  if c = 32 then { st with curWidth := cw + space, prevChar := c }
  else if c = 9 then { st with curWidth := cw + space * 4, prevChar := c }
  else if c = 11 then
    { st with curWidth := cw, height := st.height + lineSpacing * 4, curHeight := 0, prevChar := c }
  else if c = 10 then
    { curWidth := 0, curHeight := 0,
      width := if cw > st.width then cw else st.width,
      height := st.height + lineSpacing, prevChar := c }
  else
    let g := font.GetGlyph c size bold
    { st with
      curWidth := cw + (g.Advance : ℚ),
      curHeight := if (size : ℚ) + (g.Rectangle.Bottom : ℚ) > st.curHeight
                   then (size : ℚ) + (g.Rectangle.Bottom : ℚ) else st.curHeight,
      prevChar := c }

/-- The post-loop part of `Text::UpdateRect`: commit the last line's width,
add the last line's height, the italic width allowance, and the underline
height allowance (`underlineOffset + underlineThickness`, added whenever the
last line's `curHeight` is below `charSize + underlineOffset +
underlineThickness`). -/
def boxFinish (style size : Nat) (st : BoxSt) : FloatRect :=
  let bold : Bool := style &&& Bold != 0
  let width1 := if st.curWidth > st.width then st.curWidth else st.width
  let height1 := st.height + st.curHeight
  let width2 := if style &&& Italic != 0 then width1 + 208/1000 * (size : ℚ) else width1
  let height2 :=
    if style &&& Underlined != 0 then
      if st.curHeight < (size : ℚ) + (size : ℚ) * (1/10) + (size : ℚ) * (if bold then 1/10 else 7/100)
      then height1 + (size : ℚ) * (1/10) + (size : ℚ) * (if bold then 1/10 else 7/100)
      else height1
    else height1
  ⟨0, 0, width2, height2⟩

/-- The bounding rectangle `Text::UpdateRect` computes, as a pure function of
the current fields: `(0,0,0,0)` without a font or with an empty string,
otherwise the box walk followed by `boxFinish`. -/
def computeRect (F : FontId → Font) (t : TextState) : FloatRect :=
  match t.myFont with
  | none => ⟨0, 0, 0, 0⟩
  | some fid =>
    if t.myString.isEmpty then ⟨0, 0, 0, 0⟩
    else
      let font := F fid
      let bold : Bool := t.myStyle &&& Bold != 0
      let space : ℚ := ((font.GetGlyph 32 t.myCharacterSize bold).Advance : ℚ)
      let lineSpacing : ℚ := (font.GetLineSpacing t.myCharacterSize : ℚ)
      let st := t.myString.foldl
        (boxStep font t.myCharacterSize bold space lineSpacing) ⟨0, 0, 0, 0, 0⟩
      boxFinish t.myStyle t.myCharacterSize st

/-- `Text::UpdateRect` as a state transition: returns immediately when the
cache is valid, otherwise stores `computeRect` and marks the cache valid. -/
def UpdateRect (F : FontId → Font) (t : TextState) : TextState :=
  if t.myRectUpdated then t
  else { t with myRectUpdated := true, myBaseRect := computeRect F t }

/-- `Text::GetRect`: runs `UpdateRect`, then maps each side of `myBaseRect`
through its own axis's `((side - origin) * scale) + position`. The scene-graph
origin/scale/position (from `Drawable`) are passed as parameters. Returns the
world rectangle and the updated state. -/
def GetRect (F : FontId → Font) (origin scale position : ℚ × ℚ) (t : TextState) :
    FloatRect × TextState :=
  let t2 := UpdateRect F t
  (⟨(t2.myBaseRect.Left - origin.1) * scale.1 + position.1,
    (t2.myBaseRect.Top - origin.2) * scale.2 + position.2,
    (t2.myBaseRect.Right - origin.1) * scale.1 + position.1,
    (t2.myBaseRect.Bottom - origin.2) * scale.2 + position.2⟩, t2)

/-- The underline height adjustment as spec §4.2 words it: when underlined
and the last line's `curHeight` is below the threshold, add the SHORTFALL
`(charSize + underlineOffset + underlineThickness) - curHeight` to the
height. Kept for comparison with `boxFinish`, which follows the code. -/
def boxFinishSpec42 (style size : Nat) (st : BoxSt) : FloatRect :=
  let bold : Bool := style &&& Bold != 0
  let width1 := if st.curWidth > st.width then st.curWidth else st.width
  let height1 := st.height + st.curHeight
  let width2 := if style &&& Italic != 0 then width1 + 208/1000 * (size : ℚ) else width1
  let height2 :=
    if style &&& Underlined != 0 then
      if st.curHeight < (size : ℚ) + (size : ℚ) * (1/10) + (size : ℚ) * (if bold then 1/10 else 7/100)
      then height1 + (((size : ℚ) + (size : ℚ) * (1/10) + (size : ℚ) * (if bold then 1/10 else 7/100)) - st.curHeight)
      else height1
    else height1
  ⟨0, 0, width2, height2⟩

/-- The bounding-box computation as spec §4.2 words it: identical to
`computeRect` except for the underline adjustment, which adds the shortfall
(`boxFinishSpec42`) instead of the fixed allowance. -/
def computeRectSpec42 (F : FontId → Font) (t : TextState) : FloatRect :=
  match t.myFont with
  | none => ⟨0, 0, 0, 0⟩
  | some fid =>
    if t.myString.isEmpty then ⟨0, 0, 0, 0⟩
    else
      let font := F fid
      let bold : Bool := t.myStyle &&& Bold != 0
      let space : ℚ := ((font.GetGlyph 32 t.myCharacterSize bold).Advance : ℚ)
      let lineSpacing : ℚ := (font.GetLineSpacing t.myCharacterSize : ℚ)
      let st := t.myString.foldl
        (boxStep font t.myCharacterSize bold space lineSpacing) ⟨0, 0, 0, 0, 0⟩
      boxFinishSpec42 t.myStyle t.myCharacterSize st

/-- States reachable through the public operations: the two constructors, the
four setters, and the bounding-box query (`GetRect`, which runs
`UpdateRect`). `GetCharacterPos` and `Render` are const and do not change the
state. -/
inductive Reachable (F : FontId → Font) : TextState → Prop where
  | construct0 (f : FontId) : Reachable F (TextDefault f)
  | construct (s : List Nat) (f : FontId) (n : Nat) : Reachable F (TextMk s f n)
  | setString {t : TextState} (s : List Nat) : Reachable F t → Reachable F (SetString s t)
  | setFont {t : TextState} (f : FontId) : Reachable F t → Reachable F (SetFont f t)
  | setSize {t : TextState} (n : Nat) : Reachable F t → Reachable F (SetCharacterSize n t)
  | setStyle {t : TextState} (n : Nat) : Reachable F t → Reachable F (SetStyle n t)
  | query {t : TextState} : Reachable F t → Reachable F (UpdateRect F t)

/-- A concrete glyph used as the letter `A` (code point 65) in tests: advance
5, pixel rectangle with `Bottom = 1` (a small descent). -/
def glyphA : Glyph :=
  { Advance := 5, Rectangle := ⟨0, -8, 5, 1⟩, TexCoords := ⟨0, 0, 1, 1⟩ }

/-- A concrete test font: glyph `A` for code point 65, a flat space glyph of
advance 3 for code point 32, a degenerate glyph for everything else, zero
kerning, line spacing 12. -/
def testFont : Font :=
  { GetGlyph := fun c _ _ =>
      if c = 65 then glyphA
      else if c = 32 then ⟨3, ⟨0, 0, 0, 0⟩, ⟨0, 0, 0, 0⟩⟩
      else ⟨0, ⟨0, 0, 0, 0⟩, ⟨0, 0, 0, 0⟩⟩
    GetKerning := fun _ _ _ => 0
    GetLineSpacing := fun _ => 12
    GetTexCoords11 := fun _ => ⟨0, 0, 1, 1⟩ }

/-- A font environment mapping every font id to `testFont`. -/
def Ftest : FontId → Font := fun _ => testFont

/-- A concrete test state: the one-character string `A`, font 0, character
size 10, underlined, cache invalid. -/
def tUnderA : TextState :=
  { myString := [65]
    myFont := some 0
    myCharacterSize := 10
    myStyle := Underlined
    myRectUpdated := false
    myBaseRect := ⟨0, 0, 0, 0⟩ }

/-- A reachable underlined state with the cache filled: constructed with
string `A` at size 10, then `SetStyle Underlined`, then a bounding-box query. -/
def tReach : TextState := UpdateRect Ftest (SetStyle Underlined (TextMk [65] 0 10))

/-- The four code points `Text.cpp` treats specially: space 32, tab 9,
vertical tab 11, line feed 10. -/
def isSpecialChar (c : Nat) : Bool := c == 32 || c == 9 || c == 11 || c == 10

/-- Claim C1, counterexample to the claim as stated: on the default-constructed
text (whose string is empty and whose cache flag is set), `SetString` with the
identical (empty) string clears the cache's valid flag, although the new value
equals the current one. -/
theorem C1_counterexample :
    (TextDefault 0).myString = [] ∧ (TextDefault 0).myRectUpdated = true
      ∧ (SetString [] (TextDefault 0)).myRectUpdated = false :=
  ⟨rfl, rfl, rfl⟩

/-- Claim C1 (amended): `SetFont`, `SetCharacterSize`, `SetStyle` mark the
cached bounding box stale exactly when the new value differs from the current
one, and are complete no-ops on an identical value; `SetString`
unconditionally marks the cache stale, even when the new string equals the
current one; none of the four mutators modifies the cached rectangle itself. -/
theorem C1_mutator_invalidation (t : TextState) (s : List Nat) (f : FontId) (n sty : Nat) :
    (SetString s t).myRectUpdated = false
      ∧ (SetString s t).myBaseRect = t.myBaseRect
      ∧ (SetString s t).myString = s
      ∧ (SetFont f t).myRectUpdated = (t.myRectUpdated && (t.myFont == some f))
      ∧ (SetFont f t).myBaseRect = t.myBaseRect
      ∧ (t.myFont = some f → SetFont f t = t)
      ∧ (SetCharacterSize n t).myRectUpdated = (t.myRectUpdated && (t.myCharacterSize == n))
      ∧ (SetCharacterSize n t).myBaseRect = t.myBaseRect
      ∧ (t.myCharacterSize = n → SetCharacterSize n t = t)
      ∧ (SetStyle sty t).myRectUpdated = (t.myRectUpdated && (t.myStyle == sty))
      ∧ (SetStyle sty t).myBaseRect = t.myBaseRect
      ∧ (t.myStyle = sty → SetStyle sty t = t) := by
  refine ⟨rfl, rfl, rfl, ?_, ?_, ?_, ?_, ?_, ?_, ?_, ?_, ?_⟩ <;>
    simp only [SetFont, SetCharacterSize, SetStyle] <;>
    split <;> simp_all

/-- Claim C1, witness: on the default-constructed text, `SetFont` with the
already-current font is a no-op. -/
theorem C1_witness : SetFont 0 (TextDefault 0) = TextDefault 0 :=
  (C1_mutator_invalidation (TextDefault 0) [] 0 30 0).2.2.2.2.2.1 rfl

/-- Claim C3: with an empty string or an absent font, the computed local
bounding box is `(0,0,0,0)` and `Render` submits no quads. -/
theorem C3_empty_rect_render (F : FontId → Font) (t : TextState)
    (h : t.myString = [] ∨ t.myFont = none) :
    computeRect F t = ⟨0, 0, 0, 0⟩ ∧ Render F t = [] := by
  obtain ⟨str, fo, sz, sty, ru, br⟩ := t
  rcases h with h | h
  · simp only [TextState.myString] at h
    subst h
    cases fo <;> simp [computeRect, Render]
  · simp only [TextState.myFont] at h
    subst h
    simp [computeRect, Render]

/-- Claim C3, witness: the default-constructed text (empty string) has the
zero bounding box and renders no quads. -/
theorem C3_witness :
    computeRect Ftest (TextDefault 0) = ⟨0, 0, 0, 0⟩ ∧ Render Ftest (TextDefault 0) = [] :=
  C3_empty_rect_render Ftest (TextDefault 0) (Or.inl rfl)

/-- Claim C4: querying the bounding box twice with no mutation in between is
idempotent: the second `UpdateRect` leaves the state untouched (the cache is
valid, so nothing is recomputed) and returns the bit-identical rectangle. -/
theorem C4_localBounds_idempotent (F : FontId → Font) (t : TextState) :
    UpdateRect F (UpdateRect F t) = UpdateRect F t
      ∧ (UpdateRect F (UpdateRect F t)).myBaseRect = (UpdateRect F t).myBaseRect := by
  have key : ∀ s : TextState, s.myRectUpdated = true → UpdateRect F s = s := by
    intro s hs
    unfold UpdateRect
    simp [hs]
  have h : (UpdateRect F t).myRectUpdated = true := by
    unfold UpdateRect
    split <;> simp_all
  exact ⟨key _ h, by rw [key _ h]⟩

/-- Claim C9: the world-space rectangle returned by `GetRect` is obtained
from the cached local rectangle by transforming each side independently per
axis: `((side - origin) * scale) + position`, with `Left`/`Right` using the
x axis and `Top`/`Bottom` using the y axis. -/
theorem C9_worldBounds_formula (F : FontId → Font) (o s p : ℚ × ℚ) (t : TextState) :
    (GetRect F o s p t).1 =
      ⟨((UpdateRect F t).myBaseRect.Left - o.1) * s.1 + p.1,
       ((UpdateRect F t).myBaseRect.Top - o.2) * s.2 + p.2,
       ((UpdateRect F t).myBaseRect.Right - o.1) * s.1 + p.1,
       ((UpdateRect F t).myBaseRect.Bottom - o.2) * s.2 + p.2⟩ := rfl

/-- Claim C2, counterexample to the claim as stated: for the underlined
one-character string `A` at character size 10 with glyph descent 1, the box
walk ends with `curHeight = 11` and pre-adjustment height `11`; the threshold
is `10 + 1 + 0.7 = 11.7`, so the shortfall is `0.7` and the claim predicts a
final height of `11.7 = 117/10`; the code instead adds the full
`underlineOffset + underlineThickness = 1.7`, producing `12.7 = 127/10`. -/
theorem C2_counterexample :
    tUnderA.myString.foldl (boxStep testFont 10 false 3 12) ⟨0, 0, 0, 0, 0⟩
        = ⟨5, 11, 0, 0, 65⟩
      ∧ (computeRect Ftest tUnderA).Bottom = 127/10
      ∧ (computeRectSpec42 Ftest tUnderA).Bottom = 117/10
      ∧ (computeRect Ftest tUnderA).Bottom ≠ 117/10 := by
  refine ⟨?_, ?_, ?_, ?_⟩ <;>
    norm_num [computeRect, computeRectSpec42, tUnderA, Ftest, testFont, glyphA,
      boxStep, boxFinish, boxFinishSpec42, Bold, Italic, Underlined]

/-- Claim C2 (amended): in the post-loop underline adjustment, when the
Underlined bit is set and the last line's `curHeight` is below
`characterSize + underlineOffset + underlineThickness`, the height grows by
exactly `underlineOffset + underlineThickness` (not by the shortfall); when
`curHeight` is not below the threshold, the height is unchanged. -/
theorem C2_underline_height (style size : Nat) (st : BoxSt)
    (hu : style &&& Underlined != 0) :
    ((st.curHeight < (size : ℚ) + (size : ℚ) * (1/10)
          + (size : ℚ) * (if style &&& Bold != 0 then 1/10 else 7/100) →
        (boxFinish style size st).Bottom
          = st.height + st.curHeight + (size : ℚ) * (1/10)
              + (size : ℚ) * (if style &&& Bold != 0 then 1/10 else 7/100))
      ∧ (¬ st.curHeight < (size : ℚ) + (size : ℚ) * (1/10)
          + (size : ℚ) * (if style &&& Bold != 0 then 1/10 else 7/100) →
        (boxFinish style size st).Bottom = st.height + st.curHeight)) := by
  constructor <;> intro h <;>
    simp only [boxFinish, hu, if_true] <;>
    first
      | rw [if_pos h]
      | rw [if_neg h]

/-- Claim C2, witness: at style `Underlined`, size 10, with the box walk
ending at `curHeight = 11 < 11.7`, the final height is `11 + 1 + 0.7`. -/
theorem C2_witness :
    (boxFinish 4 10 ⟨5, 11, 0, 0, 65⟩).Bottom
      = (0 : ℚ) + 11 + (10 : ℚ) * (1/10)
          + (10 : ℚ) * (if 4 &&& Bold != 0 then 1/10 else 7/100) :=
  (C2_underline_height 4 10 ⟨5, 11, 0, 0, 65⟩ (by decide)).1 (by norm_num [Bold])

/-- Claim C6: a position query with an index beyond the string length returns
the same point as the query at the string length (the index is clamped), and
with an absent font every position query returns the zero vector. -/
theorem C6_charpos_clamp_nofont (F : FontId → Font) (t : TextState) (i : Nat) :
    (t.myString.length < i →
        GetCharacterPos F t i = GetCharacterPos F t t.myString.length)
      ∧ (t.myFont = none → GetCharacterPos F t i = (0, 0)) := by
  obtain ⟨str, fo, sz, sty, ru, br⟩ := t
  constructor
  · intro h
    simp only [TextState.myString] at h
    cases fo
    · rfl
    · unfold GetCharacterPos
      simp [Nat.min_eq_right (Nat.le_of_lt h)]
  · intro h
    simp only [TextState.myFont] at h
    subst h
    rfl

/-- Claim C6, witness: on the default-constructed text (string length 0),
the query at index 5 returns the same point as the query at index 0. -/
theorem C6_witness :
    GetCharacterPos Ftest (TextDefault 0) 5 = GetCharacterPos Ftest (TextDefault 0) 0 :=
  (C6_charpos_clamp_nofont Ftest (TextDefault 0) 5).1 (by decide)

/-- Over a batch of non-special characters, each `renderStep` appends exactly
one glyph quad, so the fold grows the quad list by the batch's length. -/
lemma renderFold_quads_length (font : Font) (size : Nat) (bold underlined : Bool)
    (ic off thick space ls : ℚ) (uc : FloatRect) (cs : List Nat)
    (h : ∀ c ∈ cs, isSpecialChar c = false) (st : RenderSt) :
    (cs.foldl (renderStep font size bold underlined ic off thick space ls uc) st).quads.length
      = st.quads.length + cs.length := by
  induction cs generalizing st with
  | nil => simp
  | cons c cs ih =>
    have hc := h c (List.mem_cons_self c cs)
    have hcs : ∀ x ∈ cs, isSpecialChar x = false :=
      fun x hx => h x (List.mem_cons_of_mem c hx)
    simp only [isSpecialChar, Bool.or_eq_false_iff, beq_eq_false_iff_ne] at hc
    obtain ⟨⟨⟨h32, h9⟩, h11⟩, h10⟩ := hc
    rw [List.foldl_cons, ih hcs]
    unfold renderStep
    simp [h32, h9, h11, h10]
    omega

/-- Claim C5: for a non-empty string of non-special characters (no space,
tab, vertical tab, or line feed) and a present font, `Render` submits exactly
one quad per character, plus one trailing underline quad exactly when the
Underlined bit is set. -/
theorem C5_quad_count (F : FontId → Font) (fid : FontId) (t : TextState)
    (hf : t.myFont = some fid) (hne : t.myString ≠ [])
    (hreg : ∀ c ∈ t.myString, isSpecialChar c = false) :
    (Render F t).length
      = t.myString.length + (if t.myStyle &&& Underlined != 0 then 1 else 0) := by
  obtain ⟨str, fo, sz, sty, ru, br⟩ := t
  simp only [TextState.myFont] at hf
  simp only [TextState.myString] at hne hreg
  simp only [TextState.myString, TextState.myStyle]
  subst hf
  unfold Render
  have hE : str.isEmpty = false := by
    simpa [List.isEmpty_iff] using hne
  simp only [hE, Bool.false_eq_true, if_false]
  split
  · rename_i hU
    simp [List.length_append, renderFold_quads_length _ _ _ _ _ _ _ _ _ _ _ hreg, hU]
  · rename_i hU
    simp [renderFold_quads_length _ _ _ _ _ _ _ _ _ _ _ hreg, hU]

/-- Claim C5, witness: the underlined one-character string `A` renders as one
glyph quad plus one underline quad. -/
theorem C5_witness : (Render Ftest tUnderA).length = 1 + 1 :=
  C5_quad_count Ftest 0 tUnderA rfl (by decide) (by decide)

/-- A single `posStep` on a non-line-feed character never decreases the
cursor's x coordinate when the space advance, all kerning values, and all
glyph advances are non-negative. -/
lemma posStep_x_mono (font : Font) (size : Nat) (bold : Bool) (space ls : ℚ)
    (hsp : 0 ≤ space)
    (hk : ∀ p c, 0 ≤ font.GetKerning p c size)
    (ha : ∀ c, 0 ≤ (font.GetGlyph c size bold).Advance)
    (st : PosSt) (c : Nat) (hc : c ≠ 10) :
    st.x ≤ (posStep font size bold space ls st c).x := by
  have hk0 : (0 : ℚ) ≤ ((font.GetKerning st.prevChar c size : Int) : ℚ) := by
    exact_mod_cast hk st.prevChar c
  have ha0 : (0 : ℚ) ≤ (((font.GetGlyph c size bold).Advance : Int) : ℚ) := by
    exact_mod_cast ha c
  unfold posStep
  split_ifs with h32 h9 h11 <;> dsimp only <;> linarith

/-- Folding `posStep` over any batch of non-line-feed characters never
decreases the cursor's x coordinate. -/
lemma posFold_x_mono (font : Font) (size : Nat) (bold : Bool) (space ls : ℚ)
    (hsp : 0 ≤ space)
    (hk : ∀ p c, 0 ≤ font.GetKerning p c size)
    (ha : ∀ c, 0 ≤ (font.GetGlyph c size bold).Advance)
    (cs : List Nat) (hcs : ∀ c ∈ cs, c ≠ 10) (st : PosSt) :
    st.x ≤ ((cs.foldl (posStep font size bold space ls) st)).x := by
  induction cs generalizing st with
  | nil => simp
  | cons c cs ih =>
    rw [List.foldl_cons]
    exact le_trans
      (posStep_x_mono font size bold space ls hsp hk ha st c (hcs c (List.mem_cons_self c cs)))
      (ih (fun x hx => hcs x (List.mem_cons_of_mem c hx)) _)

/-- Claim C7: for a string with no line feeds and a font whose kerning values
and glyph advances (including the space advance) are all non-negative, the x
coordinate of the position query is non-decreasing in the index. -/
theorem C7_charpos_x_monotone (F : FontId → Font) (fid : FontId) (t : TextState) (i j : Nat)
    (hf : t.myFont = some fid)
    (hnl : ∀ c ∈ t.myString, c ≠ 10)
    (hk : ∀ p c, 0 ≤ (F fid).GetKerning p c t.myCharacterSize)
    (ha : ∀ c, 0 ≤ ((F fid).GetGlyph c t.myCharacterSize (t.myStyle &&& Bold != 0)).Advance)
    (hij : i ≤ j) :
    (GetCharacterPos F t i).1 ≤ (GetCharacterPos F t j).1 := by
  obtain ⟨str, fo, sz, sty, ru, br⟩ := t
  simp only [TextState.myFont] at hf
  simp only [TextState.myString] at hnl
  simp only [TextState.myCharacterSize, TextState.myStyle] at hk ha
  subst hf
  unfold GetCharacterPos
  simp only
  have hle : min i str.length ≤ min j str.length :=
    min_le_min hij le_rfl
  have hsplit : str.take (min j str.length)
      = str.take (min i str.length)
        ++ ((str.take (min j str.length)).drop (min i str.length)) := by
    conv_lhs => rw [← List.take_append_drop (min i str.length) (str.take (min j str.length))]
    rw [List.take_take, Nat.min_eq_left hle]
  rw [hsplit, List.foldl_append]
  exact posFold_x_mono (F fid) sz (sty &&& Bold != 0) _ _
    (by exact_mod_cast ha 32) hk ha _
    (fun c hc => hnl c (List.mem_of_mem_take (List.mem_of_mem_drop hc))) _

/-- Claim C7, witness: on the underlined one-character string `A` with the
zero-kerning test font, x at index 0 is at most x at index 1. -/
theorem C7_witness :
    (GetCharacterPos Ftest tUnderA 0).1 ≤ (GetCharacterPos Ftest tUnderA 1).1 :=
  C7_charpos_x_monotone Ftest 0 tUnderA 0 1 rfl (by decide)
    (fun _ _ => le_refl 0)
    (by
      intro c
      show (0 : Int) ≤ (testFont.GetGlyph c 10 false).Advance
      unfold testFont glyphA
      dsimp only
      split_ifs <;> norm_num)
    (by norm_num)

/-- Claim C8: with a font all of whose kerning lookups return 0, the cursor
position after walking the one-character string tab equals the position after
walking four spaces: both advance x by four space advances and leave y at 0. -/
theorem C8_tab_four_spaces (F : FontId → Font) (fid : FontId) (size sty : Nat)
    (ru : Bool) (br : FloatRect)
    (hk : ∀ p c, (F fid).GetKerning p c size = 0) :
    GetCharacterPos F ⟨[9], some fid, size, sty, ru, br⟩ 1
      = GetCharacterPos F ⟨[32, 32, 32, 32], some fid, size, sty, ru, br⟩ 4 := by
  unfold GetCharacterPos
  simp only [List.length_cons, List.length_nil, List.take, List.foldl_cons, List.foldl_nil]
  unfold posStep
  simp [hk]
  ring

/-- Claim C8, witness: with the zero-kerning test font at size 10, the
position after the tab string equals the position after four spaces. -/
theorem C8_witness :
    GetCharacterPos Ftest ⟨[9], some 0, 10, 0, false, ⟨0, 0, 0, 0⟩⟩ 1
      = GetCharacterPos Ftest ⟨[32, 32, 32, 32], some 0, 10, 0, false, ⟨0, 0, 0, 0⟩⟩ 4 :=
  C8_tab_four_spaces Ftest 0 10 0 false ⟨0, 0, 0, 0⟩ (fun _ _ => rfl)

/-- `computeRect` depends only on the string, font, size, and style fields,
never on the cache fields. -/
lemma computeRect_cache_irrel (F : FontId → Font) (t : TextState) (b : Bool) (r : FloatRect) :
    computeRect F { t with myRectUpdated := b, myBaseRect := r } = computeRect F t := rfl

/-- Claim C10, counterexample to the claim as stated: `tReach` is reachable
(construct with string `A` at size 10, set style Underlined, query the
bounding box), its cache flag is set, yet the cached rectangle differs from
what the §4.2 computation as worded by the spec (underline adjustment adds
the shortfall) produces: the cache holds height `12.7`, §4.2's wording gives
`11.7`. -/
theorem C10_counterexample :
    Reachable Ftest tReach ∧ tReach.myRectUpdated = true
      ∧ tReach.myBaseRect ≠ computeRectSpec42 Ftest tReach := by
  refine ⟨Reachable.query (Reachable.setStyle Underlined (Reachable.construct [65] 0 10)), ?_, ?_⟩
  · norm_num [tReach, UpdateRect, SetStyle, TextMk, SetString, Underlined, Regular]
  · norm_num [tReach, UpdateRect, SetStyle, TextMk, SetString,
      computeRect, computeRectSpec42, Ftest, testFont, glyphA,
      boxStep, boxFinish, boxFinishSpec42, Bold, Italic, Underlined, Regular]

/-- Claim C10 (amended): in every state reachable through construction, the
four setters, and bounding-box queries, whenever the cache's valid flag is
set the cached rectangle equals the pure bounding-box computation of the
code (`computeRect`, i.e. §4.2 with the underline adjustment adding
`underlineOffset + underlineThickness` rather than the shortfall) applied to
the current fields. -/
theorem C10_cache_coherence (F : FontId → Font) (t : TextState) (hr : Reachable F t) :
    t.myRectUpdated = true → t.myBaseRect = computeRect F t := by
  induction hr with
  | construct0 f =>
    intro _
    simp [TextDefault, computeRect]
  | construct s f n =>
    intro hv
    simp [TextMk, SetString] at hv
  | setString s _ _ =>
    intro hv
    simp [SetString] at hv
  | setFont f _ ih =>
    intro hv
    rename_i t' _
    by_cases hc : t'.myFont = some f
    · simp only [SetFont, hc, if_pos] at hv ⊢
      exact ih hv
    · simp only [SetFont, if_neg hc] at hv
      simp at hv
  | setSize n _ ih =>
    intro hv
    rename_i t' _
    by_cases hc : t'.myCharacterSize = n
    · simp only [SetCharacterSize, hc, if_pos] at hv ⊢
      exact ih hv
    · simp only [SetCharacterSize, if_neg hc] at hv
      simp at hv
  | setStyle n _ ih =>
    intro hv
    rename_i t' _
    by_cases hc : t'.myStyle = n
    · simp only [SetStyle, hc, if_pos] at hv ⊢
      exact ih hv
    · simp only [SetStyle, if_neg hc] at hv
      simp at hv
  | query _ ih =>
    intro hv
    rename_i t' _
    by_cases hc : t'.myRectUpdated = true
    · simp only [UpdateRect, hc, if_pos] at hv ⊢
      exact ih hc
    · simp only [UpdateRect, if_neg hc]
      exact (computeRect_cache_irrel F t' true (computeRect F t')).symm

/-- Claim C10, witness: the default-constructed text is reachable, its cache
flag is set, and its cached rectangle agrees with the pure computation. -/
theorem C10_witness :
    (TextDefault 0).myBaseRect = computeRect Ftest (TextDefault 0) :=
  C10_cache_coherence Ftest (TextDefault 0) (Reachable.construct0 0) rfl

end SfmlText
